import Mathlib

/-!
Verification of the `SearchablePosts` client component: the Relevance Index
(fuzzy search over post records) and the Paginated List Controller
(query / page / isLoading state with a delayed incremental reveal).
Definitions follow the source component; the third-party fuzzy-search
library and the UI runtime's unmount semantics, which are not part of the
repository sources, are modelled from the specification where noted.
-/

/-- A post record as consumed by `SearchablePosts` (type `Post` in the source). -/
structure Post where
  path : String
  title : String
  description : String
  date : String
  author : String
  tags : List String
  image : Option String
deriving DecidableEq

/-- `POSTS_PER_PAGE = 4` in the source. -/
def POSTS_PER_PAGE : Nat := 4

/-- The artificial reveal delay: `setTimeout(resolve, 2000)` in `loadMorePosts`. -/
def revealDelayMs : Nat := 2000

/-- The weighted search keys configured on the index:
`title` 0.4, `description` 0.3, `tags` 0.2, `author` 0.1.
Weights and scores are represented in thousandths (400 = 0.4, 300 = 0.3,
200 = 0.2, 100 = 0.1), so that all score arithmetic is exact integer
arithmetic.  Each key extracts the list of searchable field values from a
post (`tags` contributes every tag). -/
def fuseKeys : List (ℤ × (Post → List String)) :=
  [ (400, fun p => [p.title]),
    (300, fun p => [p.description]),
    (200, fun p => p.tags),
    (100, fun p => [p.author]) ]

/-- The match-strictness threshold configured on the index (`threshold: 0.3`,
i.e. 300 thousandths; lower means stricter matching). -/
def fuseThreshold : ℤ := 300

/-- Modelled from the spec: the fuzzy-search library behind the Relevance
Index is not part of the repository sources, so its per-field dissimilarity
measure is abstracted as a parameter `sim` (0 = perfect match, larger =
more dissimilar).  `weightedScores sim q p` collects, for every weighted
field value of `p` whose dissimilarity from the query `q` is within the
threshold, a weighted score (a heavier weight yields a better, i.e. lower,
score, preserving the weight ordering required by the spec). -/
def weightedScores (sim : String → String → ℤ) (q : String) (p : Post) : List ℤ :=
  fuseKeys.flatMap fun wf =>
    ((wf.2 p).filter fun v => decide (sim q v ≤ fuseThreshold)).map
      fun v => sim q v * (1000 - wf.1)

/-- A post matches the query when at least one weighted field value is
within the match-strictness threshold. -/
def postMatches (sim : String → String → ℤ) (q : String) (p : Post) : Bool :=
  !(weightedScores sim q p).isEmpty

/-- The match score of a post: the best (lowest) of its weighted field
scores.  Lower score = better match quality. -/
def postScore (sim : String → String → ℤ) (q : String) (p : Post) : ℤ :=
  (weightedScores sim q p).foldr min 1000000

/-- Ordering on scored posts used to rank results: by score, best first. -/
def scoreLE (a b : ℤ × Post) : Prop := a.1 ≤ b.1

instance : DecidableRel scoreLE := fun a b => inferInstanceAs (Decidable (a.1 ≤ b.1))

instance : IsTotal (ℤ × Post) scoreLE := ⟨fun a b => le_total a.1 b.1⟩

instance : IsTrans (ℤ × Post) scoreLE := ⟨fun _ _ _ h h' => le_trans h h'⟩

/-- Modelled from the spec: `fuse.search(q)` — the subset of posts judged to
match `q`, ordered by descending match quality (ascending score). -/
def fuseSearch (sim : String → String → ℤ) (posts : List Post) (q : String) :
    List Post :=
  (List.insertionSort scoreLE
    ((posts.filter (postMatches sim q)).map fun p => (postScore sim q p, p))).map
    Prod.snd

/-- JavaScript `String.prototype.trim`: strip leading and trailing
whitespace (embedded over the character list so it is kernel-executable). -/
def jsTrim (s : String) : String :=
  String.mk
    (((s.data.dropWhile Char.isWhitespace).reverse.dropWhile
        Char.isWhitespace).reverse)

/-- `filteredPosts` from the source: a blank (empty or all-whitespace) query
returns the full collection unranked; otherwise the index's ranked results. -/
def filteredPosts (sim : String → String → ℤ) (posts : List Post)
    (searchQuery : String) : List Post :=
  if jsTrim searchQuery = "" then posts
  else fuseSearch sim posts searchQuery

/-- Controller state of `SearchablePosts`: the three `useState` cells
plus two pieces of runtime bookkeeping needed to express the temporal
claims: `pending`, the number of outstanding reveal timers started by
`loadMorePosts` and not yet completed, and `mounted`, whether the view
is still mounted. -/
structure Machine where
  searchQuery : String
  currentPage : Nat
  isLoading : Bool
  pending : Nat
  mounted : Bool
deriving DecidableEq

/-- `displayedPosts`: `filteredPosts.slice(0, currentPage * POSTS_PER_PAGE)`. -/
def displayedPostsM (sim : String → String → ℤ) (posts : List Post)
    (s : Machine) : List Post :=
  (filteredPosts sim posts s.searchQuery).take (s.currentPage * POSTS_PER_PAGE)

/-- `hasMorePosts = displayedPosts.length < filteredPosts.length`. -/
def hasMoreM (sim : String → String → ℤ) (posts : List Post)
    (s : Machine) : Bool :=
  decide ((displayedPostsM sim posts s).length
    < (filteredPosts sim posts s.searchQuery).length)

/-- The sentinel element observed by the intersection observer is rendered
exactly when `hasMorePosts && !isLoading`. -/
def sentinelRendered (sim : String → String → ℤ) (posts : List Post)
    (s : Machine) : Bool :=
  hasMoreM sim posts s && !s.isLoading

/-- The counter inside the sentinel block:
"{displayedPosts.length} of {filteredPosts.length} articles",
rendered exactly when the sentinel is. -/
def counterText (sim : String → String → ℤ) (posts : List Post)
    (s : Machine) : Option String :=
  if sentinelRendered sim posts s then
    some (toString (displayedPostsM sim posts s).length ++ " of "
      ++ toString (filteredPosts sim posts s.searchQuery).length ++ " articles")
  else none

/-- The end-of-list message, rendered when `!hasMorePosts`, at least one
post is displayed, and the query is blank; it states the total count
(`filteredPosts.length`).  `some n` = message shown stating `n` articles. -/
def endMessage (sim : String → String → ℤ) (posts : List Post)
    (s : Machine) : Option Nat :=
  if !hasMoreM sim posts s && decide (0 < (displayedPostsM sim posts s).length)
      && decide (jsTrim s.searchQuery = "") then
    some (filteredPosts sim posts s.searchQuery).length
  else none

/-- Events driving the controller. -/
inductive Event where
  | setQuery (q : String)
  | signal
  | timerFire
  | unmount
deriving DecidableEq

/-- One step of the controller.
* `setQuery q`: the search input's `onChange` sets the query, and the
  `useMemo` keyed on `searchQuery` synchronously resets `currentPage` to 1;
  `isLoading` is untouched.
* `signal`: the intersection observer's `onChange` fires with `inView`;
  the guard `inView && hasMorePosts && !isLoading` (re-checked at the top
  of `loadMorePosts` as `if (isLoading || !hasMorePosts) return`) admits
  the transition, which sets `isLoading` and starts the 2000 ms timer.
* `timerFire`: an outstanding reveal timer completes; `loadMorePosts`
  resumes with `setCurrentPage(prev => prev + 1); setIsLoading(false)`.
  Modelled from the spec: after unmount the view's state is torn down and
  a state update from the still-running timer is discarded by the UI
  runtime, so the resumption only consumes the timer.
* `unmount`: the view is torn down; no further input events reach it. -/
def step (sim : String → String → ℤ) (posts : List Post) (s : Machine) :
    Event → Machine
  | .setQuery q =>
      if s.mounted then { s with searchQuery := q, currentPage := 1 } else s
  | .signal =>
      if s.mounted && hasMoreM sim posts s && !s.isLoading then
        { s with isLoading := true, pending := s.pending + 1 }
      else s
  | .timerFire =>
      if s.pending = 0 then s
      else if s.mounted then
        { s with currentPage := s.currentPage + 1, isLoading := false,
                 pending := s.pending - 1 }
      else { s with pending := s.pending - 1 }
  | .unmount => { s with mounted := false }

/-- Run a sequence of events from a state. -/
def run (sim : String → String → ℤ) (posts : List Post) (s : Machine) :
    List Event → Machine
  | [] => s
  | e :: es => run sim posts (step sim posts s e) es

/-- The initial controller state:
`searchQuery = ""`, `currentPage = 1`, `isLoading = false`. -/
def initM : Machine :=
  { searchQuery := "", currentPage := 1, isLoading := false,
    pending := 0, mounted := true }

/-- States reachable from the initial state by some event sequence. -/
def Reachable (sim : String → String → ℤ) (posts : List Post)
    (s : Machine) : Prop :=
  ∃ es, run sim posts initM es = s

/-- A trivial dissimilarity measure used for concrete scenarios with a
blank query (where the index is never consulted). -/
def simZero : String → String → ℤ := fun _ _ => 0

/-- A simple exact-match dissimilarity: 0 when the field value equals the
query, 1000 (maximally dissimilar) otherwise.  Used for concrete
non-blank-query scenarios. -/
def simExact : String → String → ℤ := fun q v => if q = v then 0 else 1000

/-- A concrete post record for scenarios, with a distinguishing path. -/
def mkPost (s : String) : Post :=
  { path := s, title := "T" ++ s, description := "D" ++ s, date := "2024-01-01",
    author := "A", tags := ["t"], image := none }

/-- Six concrete posts: the spec's concrete pagination scenario. -/
def posts6 : List Post :=
  [mkPost "p1", mkPost "p2", mkPost "p3", mkPost "p4", mkPost "p5", mkPost "p6"]

/-- A mounted state on page 5 with a reveal in flight, for witnesses. -/
def statePage5 : Machine :=
  { initM with currentPage := 5, isLoading := true, pending := 1 }

/-- The state with all six posts of the concrete scenario revealed. -/
def statePage2 : Machine := { initM with currentPage := 2 }

/-- The controller's timer invariant: while mounted, the number of
outstanding reveal timers is 1 exactly when `isLoading`, and it never
exceeds 1. -/
def TimerInv (s : Machine) : Prop :=
  (s.mounted = true → s.pending = (if s.isLoading then 1 else 0)) ∧ s.pending ≤ 1

lemma inv_step (sim : String → String → ℤ) (posts : List Post) (s : Machine)
    (e : Event) (h : TimerInv s) : TimerInv (step sim posts s e) := by
  obtain ⟨h1, h2⟩ := h
  cases e with
  | setQuery q =>
      by_cases hm : s.mounted <;> simp [step, hm, TimerInv] at h1 ⊢ <;> tauto
  | signal =>
      by_cases hg : (s.mounted && hasMoreM sim posts s && !s.isLoading) = true
      · have hm : s.mounted = true := by
          rcases Bool.and_eq_true_iff.mp hg with ⟨hg', _⟩
          exact (Bool.and_eq_true_iff.mp hg').1
        have hl : s.isLoading = false := by
          rcases Bool.and_eq_true_iff.mp hg with ⟨_, hl'⟩
          simpa using hl'
        have hp : s.pending = 0 := by simpa [hl] using h1 hm
        simp [step, hg, TimerInv, hp]
      · have hs : step sim posts s .signal = s := by simp [step, hg]
        rw [hs]; exact ⟨h1, h2⟩
  | timerFire =>
      by_cases hp : s.pending = 0
      · have hs : step sim posts s .timerFire = s := by simp [step, hp]
        rw [hs]; exact ⟨h1, h2⟩
      · by_cases hm : s.mounted = true
        · simp [step, hp, hm, TimerInv]
          omega
        · simp [step, hp, hm, TimerInv]
          omega
  | unmount =>
      simp [step, TimerInv]
      omega

lemma inv_run (sim : String → String → ℤ) (posts : List Post) :
    ∀ (es : List Event) (s : Machine), TimerInv s → TimerInv (run sim posts s es) := by
  intro es
  induction es with
  | nil => intro s h; exact h
  | cons e es ih => intro s h; exact ih _ (inv_step sim posts s e h)

lemma inv_reachable (sim : String → String → ℤ) (posts : List Post)
    (s : Machine) (h : Reachable sim posts s) : TimerInv s := by
  obtain ⟨es, rfl⟩ := h
  exact inv_run sim posts es initM ⟨fun _ => rfl, by simp [initM]⟩

lemma run_unmounted (sim : String → String → ℤ) (posts : List Post) :
    ∀ (es : List Event) (s : Machine), s.mounted = false →
      (run sim posts s es).currentPage = s.currentPage
      ∧ (run sim posts s es).isLoading = s.isLoading
      ∧ (run sim posts s es).mounted = false := by
  intro es
  induction es with
  | nil => intro s h; exact ⟨rfl, rfl, h⟩
  | cons e es ih =>
      intro s h
      have hstep : (step sim posts s e).currentPage = s.currentPage
          ∧ (step sim posts s e).isLoading = s.isLoading
          ∧ (step sim posts s e).mounted = false := by
        cases e with
        | setQuery q => simp [step, h]
        | signal => simp [step, h]
        | timerFire =>
            by_cases hp : s.pending = 0 <;> simp [step, h, hp]
        | unmount => simp [step, h]
      obtain ⟨hc, hl, hm⟩ := hstep
      obtain ⟨ihc, ihl, ihm⟩ := ih (step sim posts s e) hm
      exact ⟨by rw [run, ihc, hc], by rw [run, ihl, hl], by rw [run, ihm]⟩

/-- C2: for every post collection and every query that is empty or
whitespace-only (its JavaScript trim is empty), the Relevance Index output
`filteredPosts` equals the full input collection, element for element, in
its original order, with no ranking applied. -/
theorem blank_query_returns_all (sim : String → String → ℤ)
    (posts : List Post) (q : String) (h : jsTrim q = "") :
    filteredPosts sim posts q = posts := by
  simp [filteredPosts, h]

/-- Witness for C2 at the whitespace-only query "  " on six posts. -/
theorem blank_query_returns_all_witness :
    jsTrim "  " = "" ∧ filteredPosts simZero posts6 "  " = posts6 :=
  ⟨by decide, blank_query_returns_all simZero posts6 "  " (by decide)⟩

/-- C3: in every state, `displayedPosts` is exactly the first
`currentPage * POSTS_PER_PAGE` entries of `filteredPosts` in its order
(with `POSTS_PER_PAGE = 4`); hence its length never exceeds
`filteredPosts.length` nor `currentPage * POSTS_PER_PAGE`, and
`hasMorePosts` holds exactly when fewer posts are displayed than matched. -/
theorem visible_window_invariant (sim : String → String → ℤ)
    (posts : List Post) (s : Machine) :
    POSTS_PER_PAGE = 4
    ∧ displayedPostsM sim posts s
        = (filteredPosts sim posts s.searchQuery).take
            (s.currentPage * POSTS_PER_PAGE)
    ∧ (displayedPostsM sim posts s).length
        ≤ (filteredPosts sim posts s.searchQuery).length
    ∧ (displayedPostsM sim posts s).length ≤ s.currentPage * POSTS_PER_PAGE
    ∧ (hasMoreM sim posts s = true ↔
        (displayedPostsM sim posts s).length
          < (filteredPosts sim posts s.searchQuery).length) := by
  refine ⟨rfl, rfl, ?_, ?_, ?_⟩
  · simp [displayedPostsM]
  · simp [displayedPostsM]
  · simp [hasMoreM]

/-- C4: for every prior page value, a query change (while mounted) sets the
query, synchronously resets `currentPage` to 1, and leaves `isLoading`
untouched. -/
theorem query_change_resets_page (sim : String → String → ℤ)
    (posts : List Post) (s : Machine) (q : String) (hm : s.mounted = true) :
    (step sim posts s (.setQuery q)).searchQuery = q
    ∧ (step sim posts s (.setQuery q)).currentPage = 1
    ∧ (step sim posts s (.setQuery q)).isLoading = s.isLoading := by
  simp [step, hm]

/-- Witness for C4 from a state with `currentPage = 5` and a reveal in
flight. -/
theorem query_change_resets_page_witness :
    statePage5.mounted = true
    ∧ (step simZero posts6 statePage5 (.setQuery "react")).currentPage = 1
    ∧ (step simZero posts6 statePage5 (.setQuery "react")).isLoading = true := by
  have h := query_change_resets_page simZero posts6 statePage5 "react" rfl
  exact ⟨rfl, h.2.1, h.2.2⟩

/-- C6: when `hasMorePosts` is false (in particular when a proximity signal
arrives with zero remaining matched posts), the reveal operation is a
no-op: the whole state — query, page, `isLoading` — is unchanged and the
controller does not enter `LoadingMore`. -/
theorem reveal_noop_when_no_more (sim : String → String → ℤ)
    (posts : List Post) (s : Machine) (h : hasMoreM sim posts s = false) :
    step sim posts s .signal = s := by
  simp [step, h]

/-- Witness for C6: with all six posts already revealed (`currentPage = 2`)
the proximity signal changes nothing. -/
theorem reveal_noop_when_no_more_witness :
    hasMoreM simZero posts6 statePage2 = false
    ∧ step simZero posts6 statePage2 .signal = statePage2 :=
  ⟨by decide, reveal_noop_when_no_more simZero posts6 statePage2 (by decide)⟩

/-- C10: whenever `isLoading` is true, neither the sentinel element nor the
"X of Y" counter is rendered (both are rendered only when `hasMorePosts`
holds and `isLoading` is false), so no proximity signal can originate from
the sentinel while a reveal is in flight. -/
theorem loading_hides_sentinel (sim : String → String → ℤ)
    (posts : List Post) (s : Machine) (h : s.isLoading = true) :
    sentinelRendered sim posts s = false
    ∧ counterText sim posts s = none
    ∧ (sentinelRendered sim posts s
        = (hasMoreM sim posts s && !s.isLoading)) := by
  refine ⟨by simp [sentinelRendered, h], ?_, rfl⟩
  simp [counterText, sentinelRendered, h]

/-- Witness for C10 in the loading state reached by one proximity signal. -/
theorem loading_hides_sentinel_witness :
    (run simZero posts6 initM [.signal]).isLoading = true
    ∧ sentinelRendered simZero posts6 (run simZero posts6 initM [.signal]) = false
    ∧ counterText simZero posts6 (run simZero posts6 initM [.signal]) = none := by
  have h := loading_hides_sentinel simZero posts6
    (run simZero posts6 initM [.signal]) (by decide)
  exact ⟨by decide, h.1, h.2.1⟩

/-- C1: in every reachable state at most one reveal operation is in flight
(`pending ≤ 1`); while one is in flight (`isLoading`) a further proximity
signal is ignored outright; and two proximity signals in rapid succession
followed by the timer completion increment `currentPage` by exactly 1,
not 2. -/
theorem reveal_reentrancy (sim : String → String → ℤ) (posts : List Post)
    (s : Machine) (hr : Reachable sim posts s) :
    s.pending ≤ 1
    ∧ (s.isLoading = true → step sim posts s .signal = s)
    ∧ (s.mounted = true → s.isLoading = false → hasMoreM sim posts s = true →
        (run sim posts s [.signal, .signal, .timerFire]).currentPage
          = s.currentPage + 1) := by
  refine ⟨(inv_reachable sim posts s hr).2, ?_, ?_⟩
  · intro hl
    simp [step, hl]
  · intro hm hl hhm
    simp [run, step, hm, hl, hhm]

/-- Witness for C1: from the initial state over six posts, the
double-trigger trace reveals exactly one more page. -/
theorem reveal_reentrancy_witness :
    initM.pending ≤ 1
    ∧ (run simZero posts6 initM
        [.signal, .signal, .timerFire]).currentPage = initM.currentPage + 1 := by
  have h := reveal_reentrancy simZero posts6 initM ⟨[], rfl⟩
  exact ⟨h.1, h.2.2 rfl rfl (by decide)⟩

/-- C5: triggered from Idle with more matched posts remaining, the reveal
operation sets `isLoading`; before the timer completes (the fixed delay of
`revealDelayMs = 2000` ms) `currentPage` is not yet incremented; when the
timer completes, `currentPage` increments by exactly one and `isLoading`
resets to false. -/
theorem reveal_lifecycle (sim : String → String → ℤ) (posts : List Post)
    (s : Machine) (hm : s.mounted = true) (hl : s.isLoading = false)
    (hhm : hasMoreM sim posts s = true) :
    revealDelayMs = 2000
    ∧ (step sim posts s .signal).isLoading = true
    ∧ (step sim posts s .signal).currentPage = s.currentPage
    ∧ (step sim posts (step sim posts s .signal) .timerFire).currentPage
        = s.currentPage + 1
    ∧ (step sim posts (step sim posts s .signal) .timerFire).isLoading
        = false := by
  refine ⟨rfl, ?_, ?_, ?_, ?_⟩ <;> simp [step, hm, hl, hhm]

/-- Witness for C5 from the initial state over six posts. -/
theorem reveal_lifecycle_witness :
    (step simZero posts6 initM .signal).isLoading = true
    ∧ (step simZero posts6 initM .signal).currentPage = initM.currentPage
    ∧ (step simZero posts6 (step simZero posts6 initM .signal)
        .timerFire).currentPage = initM.currentPage + 1
    ∧ (step simZero posts6 (step simZero posts6 initM .signal)
        .timerFire).isLoading = false := by
  have h := reveal_lifecycle simZero posts6 initM rfl rfl (by decide)
  exact ⟨h.2.1, h.2.2.1, h.2.2.2.1, h.2.2.2.2⟩

/-- C8: with 6 posts, page width 4 and a blank query, the initial state
shows 4 posts, has more to reveal, and renders the counter
"4 of 6 articles"; after one completed reveal (signal then timer
completion) the page is 2, all 6 posts are shown, nothing more remains,
and the end-of-list message stating the total count 6 is rendered. -/
theorem concrete_pagination_scenario :
    (displayedPostsM simZero posts6 initM).length = 4
    ∧ hasMoreM simZero posts6 initM = true
    ∧ counterText simZero posts6 initM = some "4 of 6 articles"
    ∧ (run simZero posts6 initM [.signal, .timerFire]).currentPage = 2
    ∧ (displayedPostsM simZero posts6
        (run simZero posts6 initM [.signal, .timerFire])).length = 6
    ∧ hasMoreM simZero posts6
        (run simZero posts6 initM [.signal, .timerFire]) = false
    ∧ endMessage simZero posts6
        (run simZero posts6 initM [.signal, .timerFire]) = some 6 := by
  decide

/-- C9: once the view is unmounted, a reveal timer that was still pending
can never mutate the controller state: along every continuation trace after
the unmount event, `currentPage` and `isLoading` keep the values they had
at teardown. -/
theorem unmount_freezes_state (sim : String → String → ℤ)
    (posts : List Post) (s : Machine) (es : List Event) :
    (run sim posts (step sim posts s .unmount) es).currentPage
        = s.currentPage
    ∧ (run sim posts (step sim posts s .unmount) es).isLoading
        = s.isLoading := by
  have h := run_unmounted sim posts es (step sim posts s .unmount)
    (by simp [step])
  refine ⟨?_, ?_⟩
  · rw [h.1]; simp [step]
  · rw [h.2.1]; simp [step]

/-- C7: for every non-blank query, the Relevance Index result is exactly
the subset of the input posts matching the query — a permutation of the
posts that match on at least one of the weighted fields (title 0.4,
description 0.3, tags 0.2, author 0.1, per `fuseKeys`) within the
match-strictness threshold `fuseThreshold`: every returned post is an
input post that matches, every matching input post appears in the result,
and the results are ordered by descending match quality, i.e.
non-decreasing match score. -/
theorem nonblank_query_search (sim : String → String → ℤ) (posts : List Post)
    (q : String) (h : jsTrim q ≠ "") :
    List.Perm (filteredPosts sim posts q) (posts.filter (postMatches sim q))
    ∧ (∀ p ∈ filteredPosts sim posts q, p ∈ posts ∧ postMatches sim q p = true)
    ∧ (∀ p ∈ posts, postMatches sim q p = true → p ∈ filteredPosts sim posts q)
    ∧ List.Pairwise (fun a b => postScore sim q a ≤ postScore sim q b)
        (filteredPosts sim posts q) := by
  have hf : filteredPosts sim posts q = fuseSearch sim posts q := by
    simp [filteredPosts, h]
  rw [hf]
  simp only [fuseSearch]
  set pairs := (posts.filter (postMatches sim q)).map
    fun p => (postScore sim q p, p) with hpairs
  have hperm : List.Perm (List.insertionSort scoreLE pairs) pairs :=
    List.perm_insertionSort scoreLE pairs
  have hsnd : pairs.map Prod.snd = posts.filter (postMatches sim q) := by
    rw [hpairs, List.map_map]
    have hid : (Prod.snd ∘ fun p : Post => (postScore sim q p, p)) = id := rfl
    rw [hid, List.map_id]
  have hpermres :
      List.Perm ((List.insertionSort scoreLE pairs).map Prod.snd)
        (posts.filter (postMatches sim q)) := by
    rw [← hsnd]
    exact hperm.map Prod.snd
  have hmem : ∀ x ∈ List.insertionSort scoreLE pairs,
      x.2 ∈ posts.filter (postMatches sim q) ∧ x.1 = postScore sim q x.2 := by
    intro x hx
    have hx' : x ∈ pairs := hperm.mem_iff.mp hx
    rw [hpairs] at hx'
    obtain ⟨p, hp, rfl⟩ := List.mem_map.mp hx'
    exact ⟨hp, rfl⟩
  refine ⟨hpermres, ?_, ?_, ?_⟩
  · intro p hp
    obtain ⟨x, hx, rfl⟩ := List.mem_map.mp hp
    obtain ⟨hxf, _⟩ := hmem x hx
    have hx2 := List.mem_filter.mp hxf
    exact ⟨hx2.1, hx2.2⟩
  · intro p hp hmatch
    exact hpermres.symm.subset (List.mem_filter.mpr ⟨hp, hmatch⟩)
  · have hsorted : List.Sorted scoreLE (List.insertionSort scoreLE pairs) :=
      List.sorted_insertionSort scoreLE pairs
    rw [List.pairwise_map]
    refine hsorted.imp_of_mem ?_
    intro a b ha hb hab
    have h1 := (hmem a ha).2
    have h2 := (hmem b hb).2
    rw [← h1, ← h2]
    exact hab

/-- Witness for C7: querying two posts for the first one's exact title
returns exactly that matching post, which indeed appears in the result. -/
theorem nonblank_query_search_witness :
    jsTrim "Tp1" ≠ ""
    ∧ filteredPosts simExact [mkPost "p1", mkPost "p2"] "Tp1" = [mkPost "p1"]
    ∧ mkPost "p1" ∈ filteredPosts simExact [mkPost "p1", mkPost "p2"] "Tp1"
    ∧ ∀ p ∈ filteredPosts simExact [mkPost "p1", mkPost "p2"] "Tp1",
        p ∈ [mkPost "p1", mkPost "p2"] ∧ postMatches simExact "Tp1" p = true := by
  have h := nonblank_query_search simExact [mkPost "p1", mkPost "p2"] "Tp1"
    (by decide)
  exact ⟨by decide, by decide,
    h.2.2.1 (mkPost "p1") (by decide) (by decide), h.2.1⟩
